import Mathlib

/-!
# Verification of the GST notification archiver (`gst_processor.py`)

Shallow embedding of the text-parsing and filename-derivation core of
`gst_processor.py` over `List Char`.  Python's regex character classes
`\d`, `\s`, `\w` and the case folding of `re.IGNORECASE` are modelled at
the ASCII level (the inputs of interest are ASCII); regex alternation and
greedy quantifiers are modelled with explicit continuation backtracking,
matching the semantics of Python's `re` on these patterns.
-/

namespace GstProcessor

/-- ASCII model of Python's `\s` class (also the character set removed by
`str.strip()` on ASCII text): space, tab, newline, carriage return,
vertical tab, form feed. -/
def isPySpace (c : Char) : Bool :=
  c == ' ' || c == '\t' || c == '\n' || c == '\r' || c == '\x0b' || c == '\x0c'

/-- ASCII model of Python's `\w` class: alphanumeric or underscore. -/
def isWordChar (c : Char) : Bool := c.isAlphanum || c == '_'

/-- Python `str.strip()`: drop leading and trailing whitespace. -/
def pyStrip (l : List Char) : List Char :=
  ((l.dropWhile isPySpace).reverse.dropWhile isPySpace).reverse

/-- Case-insensitive literal match of `pat` as a prefix of the input;
returns the remainder on success (ASCII case folding, as `re.IGNORECASE`
does on ASCII). -/
def matchCI : List Char → List Char → Option (List Char)
  | [], s => some s
  | _ :: _, [] => none
  | p :: ps, c :: cs => if p.toLower == c.toLower then matchCI ps cs else none

/-- The separator class `[-./]` of date pattern 1. -/
def isSepChar (c : Char) : Bool := c == '.' || c == '/' || c == '-'

/-- Match exactly one digit (`\d`), returning it and the rest. -/
def take1Digit : List Char → Option (List Char × List Char)
  | c :: r => if c.isDigit then some ([c], r) else none
  | [] => none

/-- Match exactly two digits, returning them and the rest. -/
def take2Digits : List Char → Option (List Char × List Char)
  | a :: b :: r => if a.isDigit && b.isDigit then some ([a, b], r) else none
  | _ => none

/-- Match exactly four digits (`\d{4}`), returning them and the rest. -/
def take4Digits : List Char → Option (List Char × List Char)
  | a :: b :: c :: d :: r =>
    if a.isDigit && b.isDigit && c.isDigit && d.isDigit then some ([a, b, c, d], r)
    else none
  | _ => none

/-- Greedy `\d{1,2}` with backtracking into the continuation `k`:
first try two digits, then one. -/
def tryDigits12 {α : Type} (k : List Char → List Char → Option α) (l : List Char) : Option α :=
  (match take2Digits l with
   | some (d, r) => k d r
   | none => none) <|>
  (match take1Digit l with
   | some (d, r) => k d r
   | none => none)

/-- Attempt the date part `(\d{1,2}[-./]\d{1,2}[-./]\d{4})` of pattern 1 at
the current position, returning the captured substring. -/
def matchNumDate (l : List Char) : Option (List Char) :=
  tryDigits12 (fun day r1 =>
    match r1 with
    | s1 :: r2 =>
      if isSepChar s1 then
        tryDigits12 (fun mon r3 =>
          match r3 with
          | s2 :: r4 =>
            if isSepChar s2 then
              match take4Digits r4 with
              | some (yr, _) => some (day ++ s1 :: (mon ++ s2 :: yr))
              | none => none
            else none
          | [] => none) r2
      else none
    | [] => none) l

/-- Greedy `\s*[:\s]*` separator region between the keyword and the digits
of pattern 1 (backtracking cannot shorten it because the continuation
requires a digit, which is neither a colon nor whitespace). -/
def skipColonSpace (l : List Char) : List Char :=
  l.dropWhile (fun c => c == ':' || isPySpace c)

/-- Attempt date pattern 1,
`(?:Dated|Date|No\.\s*)\s*[:\s]*(\d{1,2}[-./]\d{1,2}[-./]\d{4})` with
`re.IGNORECASE` (source line 48), at the current position.  The three
keyword alternatives are tried in the regex's order, each with the full
continuation. -/
def matchPat1At (s : List Char) : Option (List Char) :=
  (match matchCI "Dated".data s with
   | some r => matchNumDate (skipColonSpace r)
   | none => none) <|>
  (match matchCI "Date".data s with
   | some r => matchNumDate (skipColonSpace r)
   | none => none) <|>
  (match matchCI "No".data s with
   | some r =>
     match r with
     | '.' :: r2 => matchNumDate (skipColonSpace r2)
     | _ => none
   | none => none)

/-- `re.search` for pattern 1: try the match at every start position, left
to right; return the first successful capture. -/
def searchPat1 : List Char → Option (List Char)
  | [] => none
  | c :: r => matchPat1At (c :: r) <|> searchPat1 r

/-- The full English month names with their calendar indices, in the order
of the regex alternation of pattern 2 (source line 50). -/
def monthTable : List (List Char × Nat) :=
  [("January".data, 1), ("February".data, 2), ("March".data, 3), ("April".data, 4),
   ("May".data, 5), ("June".data, 6), ("July".data, 7), ("August".data, 8),
   ("September".data, 9), ("October".data, 10), ("November".data, 11), ("December".data, 12)]

/-- Try the month-name alternatives in order (case-insensitively); no two
names match at the same position, so local commitment is faithful. -/
def matchMonthFrom : List (List Char × Nat) → List Char → Option (Nat × List Char)
  | [], _ => none
  | (nm, idx) :: rest, l =>
    match matchCI nm l with
    | some r => some (idx, r)
    | none => matchMonthFrom rest l

/-- Match one of the twelve full month names, returning its calendar index
(the value `datetime.strptime(month_name, '%B').month` computes on the
captured name, case-insensitively). -/
def matchMonthAt (l : List Char) : Option (Nat × List Char) :=
  matchMonthFrom monthTable l

/-- Greedy `\s+`: at least one whitespace character, then the maximal run
(backtracking cannot shorten it: the continuations here start with a
letter, a comma or a digit, never whitespace). -/
def takeSpaces1 : List Char → Option (List Char)
  | c :: r => if isPySpace c then some (r.dropWhile isPySpace) else none
  | [] => none

/-- The tail of pattern 2 after the day digits and optional ordinal
suffix: `\s+(MonthName),\s+(\d{4})`.  Returns (day digits, month index,
year digits). -/
def matchPat2Tail (day : List Char) (r : List Char) : Option (List Char × Nat × List Char) :=
  match takeSpaces1 r with
  | some r3 =>
    match matchMonthAt r3 with
    | some (mi, r4) =>
      match r4 with
      | ',' :: r5 =>
        match takeSpaces1 r5 with
        | some r6 =>
          match take4Digits r6 with
          | some (yr, _) => some (day, mi, yr)
          | none => none
        | none => none
      | _ => none
    | none => none
  | none => none

/-- Attempt date pattern 2,
`(\d{1,2})(?:st|nd|rd|th)?\s+(January|...|December),\s+(\d{4})` with
`re.IGNORECASE` (source line 50), at the current position.  The optional
ordinal suffix is greedy: each suffix alternative is tried with the full
continuation before the suffix is omitted. -/
def matchPat2At (l : List Char) : Option (List Char × Nat × List Char) :=
  tryDigits12 (fun day r1 =>
    (match matchCI "st".data r1 with
     | some r2 => matchPat2Tail day r2
     | none => none) <|>
    (match matchCI "nd".data r1 with
     | some r2 => matchPat2Tail day r2
     | none => none) <|>
    (match matchCI "rd".data r1 with
     | some r2 => matchPat2Tail day r2
     | none => none) <|>
    (match matchCI "th".data r1 with
     | some r2 => matchPat2Tail day r2
     | none => none) <|>
    matchPat2Tail day r1) l

/-- `re.search` for pattern 2. -/
def searchPat2 : List Char → Option (List Char × Nat × List Char)
  | [] => none
  | c :: r => matchPat2At (c :: r) <|> searchPat2 r

/-- Numeric value of a digit string (`int(day)` on 1-2 digit strings). -/
def digitsToNat (l : List Char) : Nat :=
  l.foldl (fun acc c => 10 * acc + (c.toNat - 48)) 0

/-- Python `f-string` formatting `{n:02d}`. -/
def pad2 (n : Nat) : List Char :=
  if n < 10 then '0' :: (toString n).data else (toString n).data

/-- Zero-padding to four digits (`strftime('%Y')` for years below 10000;
CPython's handling of years below 1000 is platform dependent, but every
year this program parses has exactly four digits). -/
def pad4 (n : Nat) : List Char :=
  List.replicate (4 - (toString n).data.length) '0' ++ (toString n).data

/-- Reformatting of a pattern-2 match into `DD/MM/YYYY`
(`f"{int(day):02d}/{month_number:02d}/{year}"`, source line 61). -/
def rawDateSpelled (day : List Char) (mi : Nat) (yr : List Char) : List Char :=
  pad2 (digitsToNat day) ++ '/' :: (pad2 mi ++ '/' :: yr)

/-- The date-extraction cascade of `parse_gst_details` (source lines
48-61): pattern 1 first (its capture `.strip()`ped), then pattern 2
reformatted, else no date. -/
def parseRawDate (text : List Char) : Option (List Char) :=
  match searchPat1 text with
  | some g => some (pyStrip g)
  | none =>
    match searchPat2 text with
    | some (d, mi, y) => some (rawDateSpelled d mi y)
    | none => none

/-- Python substring containment `pat in l`. -/
def containsSub (pat : List Char) : List Char → Bool
  | [] => pat.isEmpty
  | c :: r => pat.isPrefixOf (c :: r) || containsSub pat r

/-- `[line.strip() for line in text.split('\n') if line.strip()]`
(source line 67). -/
def strippedLines (text : List Char) : List (List Char) :=
  ((text.splitOn '\n').map pyStrip).filter (fun l => !l.isEmpty)

/-- Python `line == line.upper()` at the ASCII level: no lowercase ASCII
letter occurs. -/
def isUpperLine (l : List Char) : Bool := l.all (fun c => c.toUpper == c)

/-- The all-caps heading test of source line 71:
`len(line) > 30 and line == line.upper() and 'GOVERNMENT' not in line`. -/
def isGoodHeading (l : List Char) : Bool :=
  decide (30 < l.length) && isUpperLine l && !containsSub "GOVERNMENT".data l

/-- Heuristic 2a (source lines 70-73): the first of the first ten
non-blank stripped lines passing the heading test. -/
def headingSubject (text : List Char) : Option (List Char) :=
  ((strippedLines text).take 10).find? isGoodHeading

/-- The header phrase split on in heuristic 2b. -/
def govHeader : List Char := "GOVERNMENT OF INDIA".data

/-- The excluded token of heuristic 2b. -/
def notifToken : List Char := "Notification No.".data

/-- Everything after the first (leftmost) occurrence of `pat`, if any
(Python `text.split(pat, 1)[-1]` yields this when `pat` occurs). -/
def afterFirstSub (pat : List Char) : List Char → Option (List Char)
  | [] => if pat.isEmpty then some [] else none
  | c :: r =>
    if pat.isPrefixOf (c :: r) then some ((c :: r).drop pat.length)
    else afterFirstSub pat r

/-- `text.split("GOVERNMENT OF INDIA", 1)[-1]` (source line 78): the text
after the first occurrence of the header phrase, or the whole text when
the phrase does not occur. -/
def afterHeader (text : List Char) : List Char :=
  (afterFirstSub govHeader text).getD text

/-- The line filter of heuristic 2b (source line 83):
`line.strip() and len(line) > 10 and 'Notification No.' not in line`,
on the raw (unstripped) line. -/
def keepFallbackLine (l : List Char) : Bool :=
  !(pyStrip l).isEmpty && decide (10 < l.length) && !containsSub notifToken l

/-- Heuristic 2b's surviving lines (source lines 81-84): filter, strip,
first three. -/
def fallbackLines (text : List Char) : List (List Char) :=
  ((((afterHeader text).splitOn '\n').filter keepFallbackLine).map pyStrip).take 3

/-- The sentinel subject (source line 42). -/
def sentinelSubject : List Char := "Subject_Not_Found".data

/-- The subject before normalization (source lines 42-87): the all-caps
heading if one is found, else the joined fallback lines if any survive,
else the sentinel. -/
def preSubject (text : List Char) : List Char :=
  match headingSubject text with
  | some l => l
  | none =>
    let fl := fallbackLines text
    if fl.isEmpty then sentinelSubject
    else List.intercalate [' '] fl

/-- The character class kept by `re.sub(r'[^\w\s-]', '', subject)`. -/
def keepSubjectChar (c : Char) : Bool := isWordChar c || isPySpace c || c == '-'

/-- `re.sub(r'\s+', '_', s)`: each maximal whitespace run becomes a single
underscore.  The flag records whether the previous character was part of a
run already replaced. -/
def collapseWsAux : Bool → List Char → List Char
  | _, [] => []
  | inWs, c :: r =>
    if isPySpace c then
      if inWs then collapseWsAux true r else '_' :: collapseWsAux true r
    else c :: collapseWsAux false r

/-- `re.sub(r'\s+', '_', s)` (source line 95). -/
def collapseWs (l : List Char) : List Char := collapseWsAux false l

/-- Python `s.rstrip('_')`. -/
def rstripUnderscores (l : List Char) : List Char :=
  (l.reverse.dropWhile (fun c => c == '_')).reverse

/-- The subject normalization of source lines 93-95: remove characters
outside `\w`, `\s`, `-`; strip; collapse whitespace runs to `_`; truncate
to 80 characters; strip trailing underscores. -/
def normalizeSubject (s : List Char) : List Char :=
  rstripUnderscores ((collapseWs (pyStrip (s.filter keepSubjectChar))).take 80)

/-- `parse_gst_details` (source lines 37-97): the raw date and the
normalized subject. -/
def parse_gst_details (text : List Char) : Option (List Char) × List Char :=
  (parseRawDate text, normalizeSubject (preSubject text))

/-- Gregorian leap-year rule, as `datetime` uses. -/
def isLeapYear (y : Nat) : Bool := y % 4 == 0 && (y % 100 != 0 || y % 400 == 0)

/-- Days in a month, as `datetime` validates. -/
def daysInMonth (y m : Nat) : Nat :=
  if m == 2 then (if isLeapYear y then 29 else 28)
  else if m == 4 || m == 6 || m == 9 || m == 11 then 30
  else 31

/-- Value of a digit character. -/
def dval (c : Char) : Nat := c.toNat - 48

/-- The two-digit alternatives `3[01]|[12]\d|0[1-9]` of CPython
`_strptime`'s regex for `%d`. -/
def matchDay2 : List Char → Option (Nat × List Char)
  | a :: b :: r =>
    if a == '3' && (b == '0' || b == '1') then some (30 + dval b, r)
    else if (a == '1' || a == '2') && b.isDigit then some (10 * dval a + dval b, r)
    else if a == '0' && b.isDigit && b != '0' then some (dval b, r)
    else none
  | _ => none

/-- The one-digit alternative `[1-9]` of `%d`. -/
def matchDay1 : List Char → Option (Nat × List Char)
  | c :: r => if c.isDigit && c != '0' then some (dval c, r) else none
  | [] => none

/-- The two-digit alternatives `1[0-2]|0[1-9]` of `%m`. -/
def matchMon2 : List Char → Option (Nat × List Char)
  | a :: b :: r =>
    if a == '1' && (b == '0' || b == '1' || b == '2') then some (10 + dval b, r)
    else if a == '0' && b.isDigit && b != '0' then some (dval b, r)
    else none
  | _ => none

/-- The one-digit alternative `[1-9]` of `%m`. -/
def matchMon1 : List Char → Option (Nat × List Char)
  | c :: r => if c.isDigit && c != '0' then some (dval c, r) else none
  | [] => none

/-- The tail `%Y` of the format: exactly four digits, then the end of the
string (`strptime` rejects unconverted trailing data), then `datetime`'s
range validation (year at least 1, day within the month). -/
def finishYMD (d m : Nat) (r : List Char) : Option (Nat × Nat × Nat) :=
  match take4Digits r with
  | some (yd, rest) =>
    if rest.isEmpty then
      let y := digitsToNat yd
      if 1 ≤ y ∧ d ≤ daysInMonth y m then some (d, m, y) else none
    else none
  | none => none

/-- The literal `/` of the format, then the continuation `k`. -/
def slashThen (k : List Char → Option (Nat × Nat × Nat)) : List Char → Option (Nat × Nat × Nat)
  | c :: r => if c = '/' then k r else none
  | [] => none

/-- `%m` (two-digit alternatives before the one-digit one, each with the
full continuation), then `/`, then `%Y`. -/
def monthSlashYear (d : Nat) (r2 : List Char) : Option (Nat × Nat × Nat) :=
  (match matchMon2 r2 with
   | some (m, r3) => slashThen (finishYMD d m) r3
   | none => none) <|>
  (match matchMon1 r2 with
   | some (m, r3) => slashThen (finishYMD d m) r3
   | none => none)

/-- After the day: the literal `/`, then month, `/`, year. -/
def afterDaySlash (d : Nat) (r : List Char) : Option (Nat × Nat × Nat) :=
  slashThen (monthSlashYear d) r

/-- `datetime.strptime(s, '%d/%m/%Y')` (source line 144): `some (d, m, y)`
on success, `none` for a `ValueError`. -/
def strptimeDMY (s : List Char) : Option (Nat × Nat × Nat) :=
  (match matchDay2 s with
   | some (d, r) => afterDaySlash d r
   | none => none) <|>
  (match matchDay1 s with
   | some (d, r) => afterDaySlash d r
   | none => none)

/-- `raw_date.replace('-', '/').replace('.', '/')` (source line 144). -/
def sepsToSlash (s : List Char) : List Char :=
  s.map (fun c => if c == '-' || c == '.' then '/' else c)

/-- The composer's date normalization (source lines 144-145): `some` of
the `YYYY-MM-DD` rendering when the raw date parses, `none` when
`strptime` raises (the `except ValueError` branch). -/
def composeDate (raw : List Char) : Option (List Char) :=
  match strptimeDMY (sepsToSlash raw) with
  | some (d, m, y) => some (pad4 y ++ '-' :: (pad2 m ++ '-' :: pad2 d))
  | none => none

/-- The filename's date part: the parsed date, or the current date
(source line 148, passed in as `today`) when parsing fails. -/
def fileDate (raw today : List Char) : List Char := (composeDate raw).getD today

/-- Outcome of the `__main__` block after text extraction succeeded:
either a file is saved under a computed name, or the process exits with
status 1 and no file is written. -/
inductive MainOutcome where
  | save (filename : List Char) : MainOutcome
  | exit1 : MainOutcome
deriving DecidableEq

/-- The `__main__` pipeline on extracted text (source lines 138-158):
save `{date_prefix}_{subject}.pdf` when a raw date was found and the
subject is a non-empty non-sentinel string, else exit with status 1.
`today` is the current date rendered `YYYY-MM-DD`. -/
def mainOutcome (text today : List Char) : MainOutcome :=
  match (parse_gst_details text).1 with
  | none => .exit1
  | some raw =>
    if raw ≠ [] ∧ (parse_gst_details text).2 ≠ [] ∧ (parse_gst_details text).2 ≠ sentinelSubject
    then .save (fileDate raw today ++ '_' :: ((parse_gst_details text).2 ++ ".pdf".data))
    else .exit1

/-! ## General helper lemmas -/

theorem mem_dropWhile {α : Type} {p : α → Bool} {l : List α} {a : α}
    (h : a ∈ l.dropWhile p) : a ∈ l :=
  (List.dropWhile_sublist p).subset h

theorem dropWhile_all_false {α : Type} {p : α → Bool} {l : List α}
    (h : ∀ c ∈ l, p c = false) : l.dropWhile p = l := by
  cases l with
  | nil => rfl
  | cons a t => exact List.dropWhile_cons_of_neg (by simp [h a (List.mem_cons_self a t)])

theorem dropWhile_idem {α : Type} (p : α → Bool) (l : List α) :
    (l.dropWhile p).dropWhile p = l.dropWhile p := by
  cases h : l.dropWhile p with
  | nil => rfl
  | cons a t =>
    have hhd := List.head?_dropWhile_not p l
    rw [h] at hhd
    simp only [List.head?_cons] at hhd
    exact List.dropWhile_cons_of_neg (by simp [hhd])

theorem mem_pyStrip {l : List Char} {c : Char} (h : c ∈ pyStrip l) : c ∈ l := by
  unfold pyStrip at h
  rw [List.mem_reverse] at h
  have h2 := mem_dropWhile h
  rw [List.mem_reverse] at h2
  exact mem_dropWhile h2

theorem pyStrip_all_nonspace {l : List Char} (h : ∀ c ∈ l, isPySpace c = false) :
    pyStrip l = l := by
  unfold pyStrip
  rw [dropWhile_all_false h,
    dropWhile_all_false (fun c hc => h c (List.mem_reverse.mp hc)), List.reverse_reverse]

theorem mem_collapseWsAux {c : Char} : ∀ {b : Bool} {l : List Char},
    c ∈ collapseWsAux b l → c = '_' ∨ (c ∈ l ∧ isPySpace c = false)
  | _, [], h => by simp [collapseWsAux] at h
  | b, a :: t, h => by
    simp only [collapseWsAux] at h
    by_cases ha : isPySpace a = true
    · rw [if_pos ha] at h
      cases b with
      | true =>
        rcases mem_collapseWsAux h with h' | ⟨h1, h2⟩
        · exact Or.inl h'
        · exact Or.inr ⟨List.mem_cons_of_mem a h1, h2⟩
      | false =>
        rcases List.mem_cons.mp h with rfl | h'
        · exact Or.inl rfl
        · rcases mem_collapseWsAux h' with h'' | ⟨h1, h2⟩
          · exact Or.inl h''
          · exact Or.inr ⟨List.mem_cons_of_mem a h1, h2⟩
    · rw [if_neg ha] at h
      rcases List.mem_cons.mp h with rfl | h'
      · exact Or.inr ⟨List.mem_cons_self _ _, by simpa using ha⟩
      · rcases mem_collapseWsAux h' with h'' | ⟨h1, h2⟩
        · exact Or.inl h''
        · exact Or.inr ⟨List.mem_cons_of_mem a h1, h2⟩

theorem collapseWsAux_all_nonspace : ∀ (l : List Char),
    (∀ c ∈ l, isPySpace c = false) → ∀ b, collapseWsAux b l = l
  | [], _, _ => rfl
  | a :: t, h, b => by
    have ha := h a (List.mem_cons_self a t)
    have ht := fun c hc => h c (List.mem_cons_of_mem a hc)
    simp [collapseWsAux, ha, collapseWsAux_all_nonspace t ht false]

theorem mem_rstripUnderscores {l : List Char} {c : Char}
    (h : c ∈ rstripUnderscores l) : c ∈ l := by
  unfold rstripUnderscores at h
  rw [List.mem_reverse] at h
  have h2 := mem_dropWhile h
  rwa [List.mem_reverse] at h2

theorem length_rstripUnderscores_le (l : List Char) :
    (rstripUnderscores l).length ≤ l.length := by
  unfold rstripUnderscores
  rw [List.length_reverse]
  have h : List.Sublist (l.reverse.dropWhile (fun c => c == '_')) l.reverse :=
    List.dropWhile_sublist _
  have h2 := h.length_le
  rwa [List.length_reverse] at h2

theorem getLast?_rstripUnderscores (l : List Char) :
    (rstripUnderscores l).getLast? ≠ some '_' := by
  unfold rstripUnderscores
  rw [List.getLast?_reverse]
  have hhd := List.head?_dropWhile_not (fun c => c == '_') l.reverse
  intro hc
  rw [hc] at hhd
  simp at hhd

theorem rstripUnderscores_rstrip (l : List Char) :
    rstripUnderscores (rstripUnderscores l) = rstripUnderscores l := by
  unfold rstripUnderscores
  rw [List.reverse_reverse, dropWhile_idem]

/-! ## Character-class facts -/

theorem word_not_space {c : Char} (h : isWordChar c = true) : isPySpace c = false := by
  cases hsp : isPySpace c with
  | false => rfl
  | true =>
    exfalso
    simp only [isPySpace, Bool.or_eq_true, beq_iff_eq] at hsp
    rcases hsp with ((((rfl | rfl) | rfl) | rfl) | rfl) | rfl <;> exact absurd h (by decide)

theorem hyphen_not_space : isPySpace '-' = false := by decide

/-! ## The normalized subject: invariants (claims C5, C6) -/

theorem mem_normalizeSubject {s : List Char} {c : Char} (h : c ∈ normalizeSubject s) :
    (isWordChar c || c == '-') = true ∧ isPySpace c = false := by
  unfold normalizeSubject at h
  have h1 := mem_rstripUnderscores h
  have h2 := List.mem_of_mem_take h1
  rcases mem_collapseWsAux h2 with rfl | ⟨h3, hsp⟩
  · exact ⟨by decide, by decide⟩
  · have h4 := mem_pyStrip h3
    have h5 := (List.mem_filter.mp h4).2
    simp only [keepSubjectChar, Bool.or_eq_true] at h5
    rcases h5 with (hw | hs) | hd
    · exact ⟨by simp [hw], word_not_space hw⟩
    · rw [hs] at hsp; exact absurd hsp (by decide)
    · have : c = '-' := by simpa using hd
      subst this
      exact ⟨by decide, by decide⟩

theorem normalizeSubject_length_le (s : List Char) : (normalizeSubject s).length ≤ 80 := by
  unfold normalizeSubject
  have h1 := length_rstripUnderscores_le ((collapseWs (pyStrip (s.filter keepSubjectChar))).take 80)
  have h2 : ((collapseWs (pyStrip (s.filter keepSubjectChar))).take 80).length ≤ 80 := by
    rw [List.length_take]
    exact Nat.min_le_left _ _
  omega

theorem normalizeSubject_idem (s : List Char) :
    normalizeSubject (normalizeSubject s) = normalizeSubject s := by
  have hchar : ∀ c ∈ normalizeSubject s,
      (isWordChar c || c == '-') = true ∧ isPySpace c = false :=
    fun c hc => mem_normalizeSubject hc
  have hfilter : (normalizeSubject s).filter keepSubjectChar = normalizeSubject s := by
    rw [List.filter_eq_self]
    intro c hc
    have hw := (hchar c hc).1
    simp only [keepSubjectChar, Bool.or_eq_true]
    rcases Bool.or_eq_true _ _ |>.mp hw with h | h
    · exact Or.inl (Or.inl h)
    · exact Or.inr h
  have hnosp : ∀ c ∈ normalizeSubject s, isPySpace c = false := fun c hc => (hchar c hc).2
  conv_lhs => rw [normalizeSubject, hfilter, pyStrip_all_nonspace hnosp]
  rw [collapseWs, collapseWsAux_all_nonspace _ hnosp false,
    List.take_of_length_le (normalizeSubject_length_le s)]
  conv_lhs => rw [normalizeSubject]
  rw [rstripUnderscores_rstrip]
  rw [normalizeSubject]

/-! ## find? decomposition, search lemmas -/

theorem find?_decomp {α : Type} (p : α → Bool) : ∀ (l : List α), (∃ x ∈ l, p x = true) →
    ∃ pre a post, l = pre ++ a :: post ∧ (∀ x ∈ pre, p x = false) ∧ p a = true ∧
      l.find? p = some a
  | [], h => by simp at h
  | a :: t, h => by
    cases hpa : p a with
    | true =>
      exact ⟨[], a, t, rfl, by simp, hpa, by rw [List.find?_cons_of_pos _ hpa]⟩
    | false =>
      have h' : ∃ x ∈ t, p x = true := by
        rcases h with ⟨x, hx, hpx⟩
        rcases List.mem_cons.mp hx with rfl | hx'
        · rw [hpa] at hpx; exact absurd hpx (by simp)
        · exact ⟨x, hx', hpx⟩
      obtain ⟨pre, b, post, heq, hall, hpb, hfind⟩ := find?_decomp p t h'
      refine ⟨a :: pre, b, post, by rw [heq]; rfl, ?_, hpb, ?_⟩
      · intro x hx
        rcases List.mem_cons.mp hx with rfl | hx'
        · exact hpa
        · exact hall x hx'
      · rw [List.find?_cons_of_neg _ (by simp [hpa]), hfind]

theorem searchPat1_isSome_of_match : ∀ (text : List Char) (i : Nat),
    (matchPat1At (text.drop i)).isSome = true → (searchPat1 text).isSome = true
  | [], i, h => by
    rw [List.drop_nil] at h
    exact absurd h (by decide)
  | c :: r, 0, h => by
    rw [List.drop_zero] at h
    unfold searchPat1
    cases hm : matchPat1At (c :: r) with
    | some g => simp [hm]
    | none => rw [hm] at h; exact absurd h (by decide)
  | c :: r, i + 1, h => by
    rw [List.drop_succ_cons] at h
    unfold searchPat1
    have hr := searchPat1_isSome_of_match r i h
    cases hm : matchPat1At (c :: r) with
    | some g => simp [hm]
    | none => simpa [hm] using hr

theorem searchPat2_isSome_of_match : ∀ (text : List Char) (i : Nat),
    (matchPat2At (text.drop i)).isSome = true → (searchPat2 text).isSome = true
  | [], i, h => by
    rw [List.drop_nil] at h
    exact absurd h (by decide)
  | c :: r, 0, h => by
    rw [List.drop_zero] at h
    unfold searchPat2
    cases hm : matchPat2At (c :: r) with
    | some g => simp [hm]
    | none => rw [hm] at h; exact absurd h (by decide)
  | c :: r, i + 1, h => by
    rw [List.drop_succ_cons] at h
    unfold searchPat2
    have hr := searchPat2_isSome_of_match r i h
    cases hm : matchPat2At (c :: r) with
    | some g => simp [hm]
    | none => simpa [hm] using hr

/-- C5: for every input text, the subject string returned by
`parse_gst_details` has length at most 80, every character of it is a word
character or a hyphen (in particular no whitespace remains), and it does
not end in an underscore. -/
theorem c5_subject_invariants (text : List Char) :
    ((parse_gst_details text).2).length ≤ 80 ∧
    (∀ c ∈ (parse_gst_details text).2, (isWordChar c || c == '-') = true ∧ isPySpace c = false) ∧
    ((parse_gst_details text).2).getLast? ≠ some '_' :=
  ⟨normalizeSubject_length_le _, fun _ hc => mem_normalizeSubject hc,
    getLast?_rstripUnderscores _⟩

/-- C6: the subject normalization transform of `parse_gst_details`
(remove characters outside word characters, whitespace and hyphen; strip;
collapse whitespace runs to single underscores; truncate to 80; strip
trailing underscores) is idempotent. -/
theorem c6_normalize_idempotent (s : List Char) :
    normalizeSubject (normalizeSubject s) = normalizeSubject s :=
  normalizeSubject_idem s

/-- C2: if among the first 10 non-blank (stripped) lines there is one that
is longer than 30 characters, entirely upper-case, and free of the literal
word GOVERNMENT, then `parse_gst_details` selects the first such line as
the subject before normalization — `preSubject` returns that line itself,
so no fallback heuristic contributes. -/
theorem c2_allcaps_heading (text : List Char)
    (h : ∃ l ∈ (strippedLines text).take 10, isGoodHeading l = true) :
    ∃ pre a post, (strippedLines text).take 10 = pre ++ a :: post ∧
      (∀ x ∈ pre, isGoodHeading x = false) ∧ isGoodHeading a = true ∧
      preSubject text = a ∧ (parse_gst_details text).2 = normalizeSubject a := by
  obtain ⟨pre, a, post, heq, hall, hpa, hfind⟩ := find?_decomp isGoodHeading _ h
  have hh : headingSubject text = some a := hfind
  exact ⟨pre, a, post, heq, hall, hpa, by rw [preSubject, hh],
    by rw [parse_gst_details, preSubject, hh]⟩

/-- Witness for C2 on a document whose third line is a 38-character
all-caps heading. -/
theorem c2_allcaps_heading_w :
    ∃ pre a post,
      (strippedLines "Ministry of Finance\nDated 15/08/2025\nEXEMPTION FROM CENTRAL GOODS AND TAX LEVY\nbody text follows here".data).take 10 = pre ++ a :: post ∧
      (∀ x ∈ pre, isGoodHeading x = false) ∧ isGoodHeading a = true ∧
      preSubject "Ministry of Finance\nDated 15/08/2025\nEXEMPTION FROM CENTRAL GOODS AND TAX LEVY\nbody text follows here".data = a ∧
      (parse_gst_details "Ministry of Finance\nDated 15/08/2025\nEXEMPTION FROM CENTRAL GOODS AND TAX LEVY\nbody text follows here".data).2 = normalizeSubject a :=
  c2_allcaps_heading _ (by decide)

/-- C7: a raw date that `strptime` rejects is never fatal: the composer's
date part falls back to the current date (`today`), the example 99/99/9999
is such a date, and the pipeline still saves the file (with the
substituted date) whenever a raw date and a usable subject are present. -/
theorem c7_malformed_date_fallback :
    (∀ raw today : List Char, strptimeDMY (sepsToSlash raw) = none →
      fileDate raw today = today) ∧
    strptimeDMY (sepsToSlash "99/99/9999".data) = none ∧
    (∀ text today raw, (parse_gst_details text).1 = some raw → raw ≠ [] →
      (parse_gst_details text).2 ≠ [] → (parse_gst_details text).2 ≠ sentinelSubject →
      mainOutcome text today =
        MainOutcome.save (fileDate raw today ++ '_' :: ((parse_gst_details text).2 ++ ".pdf".data))) := by
  refine ⟨?_, by decide, ?_⟩
  · intro raw today h
    rw [fileDate, composeDate, h]
    rfl
  · intro text today raw h h1 h2 h3
    rw [mainOutcome, h]
    exact if_pos ⟨h1, h2, h3⟩

/-- Witness for C7: the malformed date 99/99/9999 yields the current
date as the filename's date part. -/
theorem c7_malformed_date_fallback_w :
    fileDate "99/99/9999".data "2026-10-12".data = "2026-10-12".data :=
  c7_malformed_date_fallback.1 _ _ (by decide)

/-- C8: when neither date pattern matches anywhere in the text,
`parse_gst_details` reports no raw date and the pipeline exits with
status 1 — `create_and_save_pdf` is never reached, so no file is
written. -/
theorem c8_no_date_exit (text today : List Char)
    (h1 : searchPat1 text = none) (h2 : searchPat2 text = none) :
    (parse_gst_details text).1 = none ∧ mainOutcome text today = MainOutcome.exit1 := by
  have hraw : parseRawDate text = none := by
    rw [parseRawDate, h1, h2]
  refine ⟨hraw, ?_⟩
  rw [mainOutcome, show (parse_gst_details text).1 = none from hraw]

/-- Witness for C8 on a text with no recognizable date. -/
theorem c8_no_date_exit_w :
    (parse_gst_details "a notification with no recognizable date pattern".data).1 = none ∧
    mainOutcome "a notification with no recognizable date pattern".data "2026-10-12".data =
      MainOutcome.exit1 :=
  c8_no_date_exit _ _ (by decide) (by decide)

/-- C9: the pipeline saves a file only when the normalized subject is a
non-empty string different from the sentinel Subject_Not_Found; the
sentinel passes normalization unchanged (so the downstream comparison
detects it); and a subject that normalizes to the empty string forces
exit status 1 with no file written. -/
theorem c9_save_guard :
    (∀ text today fn, mainOutcome text today = MainOutcome.save fn →
      (parse_gst_details text).2 ≠ [] ∧ (parse_gst_details text).2 ≠ sentinelSubject) ∧
    normalizeSubject sentinelSubject = sentinelSubject ∧
    (∀ text today, (parse_gst_details text).2 = [] →
      mainOutcome text today = MainOutcome.exit1) := by
  refine ⟨?_, by decide, ?_⟩
  · intro text today fn h
    by_cases hc : (parse_gst_details text).2 ≠ [] ∧ (parse_gst_details text).2 ≠ sentinelSubject
    · exact hc
    · exfalso
      rw [mainOutcome] at h
      cases hr : (parse_gst_details text).1 with
      | none => rw [hr] at h; exact MainOutcome.noConfusion h
      | some raw =>
        rw [hr] at h
        have h' : (if raw ≠ [] ∧ (parse_gst_details text).2 ≠ [] ∧
                (parse_gst_details text).2 ≠ sentinelSubject
              then MainOutcome.save
                (fileDate raw today ++ '_' :: ((parse_gst_details text).2 ++ ".pdf".data))
              else MainOutcome.exit1) = MainOutcome.save fn := h
        rw [if_neg (fun hcon => hc ⟨hcon.2.1, hcon.2.2⟩)] at h'
        exact MainOutcome.noConfusion h'
  · intro text today h
    rw [mainOutcome]
    cases hr : (parse_gst_details text).1 with
    | none => rfl
    | some raw =>
      show (if raw ≠ [] ∧ (parse_gst_details text).2 ≠ [] ∧
            (parse_gst_details text).2 ≠ sentinelSubject
          then MainOutcome.save
            (fileDate raw today ++ '_' :: ((parse_gst_details text).2 ++ ".pdf".data))
          else MainOutcome.exit1) = MainOutcome.exit1
      rw [if_neg]
      intro hcon
      exact hcon.2.1 h

/-- Witness for C9: a document that saves has a non-empty non-sentinel
subject, and a document whose only candidate subject line normalizes to
the empty string exits with status 1. -/
theorem c9_save_guard_w :
    ((parse_gst_details "Dated 15/08/2025\nTHIS IS A VERY LONG ALL CAPS SUBJECT LINE OK".data).2 ≠ [] ∧
     (parse_gst_details "Dated 15/08/2025\nTHIS IS A VERY LONG ALL CAPS SUBJECT LINE OK".data).2 ≠ sentinelSubject) ∧
    mainOutcome "!!! ??? !!! ???".data "2026-10-12".data = MainOutcome.exit1 :=
  ⟨c9_save_guard.1 _ "2026-10-12".data
      ("2025-08-15_THIS_IS_A_VERY_LONG_ALL_CAPS_SUBJECT_LINE_OK.pdf".data) (by decide),
   c9_save_guard.2.2 _ "2026-10-12".data (by decide)⟩

/-- Auxiliary for C10: when the pattern does not occur, the scan for its
first occurrence fails. -/
theorem afterFirstSub_none {pat : List Char} : ∀ {l : List Char},
    containsSub pat l = false → afterFirstSub pat l = none
  | [], h => by
    rw [containsSub] at h
    rw [afterFirstSub, if_neg (by simp [h])]
  | c :: r, h => by
    rw [containsSub, Bool.or_eq_false_iff] at h
    rw [afterFirstSub, if_neg (by simp [h.1])]
    exact afterFirstSub_none h.2

/-- C10: for a text that does not contain the phrase GOVERNMENT OF INDIA,
the post-header split yields the whole text, so the fallback subject
lines are drawn from the entire document. -/
theorem c10_no_header_whole_text (text : List Char)
    (h : containsSub govHeader text = false) :
    afterHeader text = text ∧
    fallbackLines text =
      (((text.splitOn '\n').filter keepFallbackLine).map pyStrip).take 3 := by
  have ha : afterHeader text = text := by
    rw [afterHeader, afterFirstSub_none h]
    rfl
  exact ⟨ha, by rw [fallbackLines, ha]⟩

/-- Witness for C10 on a headerless document. -/
theorem c10_no_header_whole_text_w :
    afterHeader "a first relevant line\nand a second relevant line".data =
      "a first relevant line\nand a second relevant line".data ∧
    fallbackLines "a first relevant line\nand a second relevant line".data =
      ((("a first relevant line\nand a second relevant line".data.splitOn '\n').filter
        keepFallbackLine).map pyStrip).take 3 :=
  c10_no_header_whole_text _ (by decide)

/-- C3: when the keyword-anchored numeric pattern finds no match but the
spelled-out pattern matches somewhere (any match guarantees the search
succeeds), `parse_gst_details` returns the raw date DD/MM/YYYY built from
the zero-padded day and the month's calendar index; in particular a text
containing 5th November, 2025 yields 05/11/2025 and the composer prefix
2025-11-05. -/
theorem c3_spelled_out_date :
    (∀ text i, (matchPat2At (text.drop i)).isSome = true → (searchPat2 text).isSome = true) ∧
    (∀ text d y : List Char, ∀ mi : Nat, searchPat1 text = none →
      searchPat2 text = some (d, mi, y) →
      (parse_gst_details text).1 =
        some (pad2 (digitsToNat d) ++ '/' :: (pad2 mi ++ '/' :: y))) ∧
    ((parse_gst_details "Circular issued on 5th November, 2025 regarding tax".data).1 =
        some "05/11/2025".data ∧
      composeDate "05/11/2025".data = some "2025-11-05".data) := by
  refine ⟨searchPat2_isSome_of_match, ?_, by decide, by decide⟩
  intro text d y mi h1 h2
  show parseRawDate text = some (pad2 (digitsToNat d) ++ '/' :: (pad2 mi ++ '/' :: y))
  rw [parseRawDate, h1]
  show (match searchPat2 text with
    | some (d, mi, y) => some (rawDateSpelled d mi y)
    | none => none) = _
  rw [h2]
  rfl

/-- Witness for C3: the spelled-out date in a sample circular. -/
theorem c3_spelled_out_date_w :
    (parse_gst_details "Tax circular effective from 5th November, 2025 onward".data).1 =
      some (pad2 (digitsToNat "5".data) ++ '/' :: (pad2 11 ++ '/' :: "2025".data)) :=
  c3_spelled_out_date.2.1 _ "5".data "2025".data 11 (by decide) (by decide)

/-- Auxiliary for C4: scanning for the first occurrence of `pat` in
`pre ++ pat ++ post` yields `post` when no occurrence starts inside
`pre`. -/
theorem afterFirstSub_append {pat : List Char} (hne : pat ≠ []) : ∀ (pre post : List Char),
    (∀ i, i < pre.length → pat.isPrefixOf ((pre ++ pat ++ post).drop i) = false) →
    afterFirstSub pat (pre ++ pat ++ post) = some post
  | [], post, _ => by
    rw [List.nil_append]
    obtain ⟨c, r, hpat⟩ : ∃ c r, pat = c :: r := by
      cases pat with
      | nil => exact absurd rfl hne
      | cons c r => exact ⟨c, r, rfl⟩
    subst hpat
    rw [List.cons_append, afterFirstSub, if_pos ?hpre]
    case hpre =>
      rw [show c :: (r ++ post) = (c :: r) ++ post from rfl, List.isPrefixOf_iff_prefix]
      exact List.prefix_append _ _
    rw [show c :: (r ++ post) = (c :: r) ++ post from rfl, List.drop_left]
  | a :: pre', post, hfirst => by
    have h0 := hfirst 0 (by simp)
    rw [List.drop_zero] at h0
    have hrest : ∀ i, i < pre'.length →
        pat.isPrefixOf ((pre' ++ pat ++ post).drop i) = false := by
      intro i hi
      have := hfirst (i + 1) (by simpa using Nat.succ_lt_succ hi)
      rwa [List.cons_append, List.cons_append, List.drop_succ_cons] at this
    rw [List.cons_append, List.cons_append, afterFirstSub, if_neg ?hneg]
    case hneg =>
      simp only [List.cons_append] at h0
      intro hc
      exact Bool.noConfusion (h0.symm.trans hc)
    exact afterFirstSub_append hne pre' post hrest

/-- C4: when the all-caps heading heuristic finds nothing, the
pre-normalization subject is obtained by splitting on the first
occurrence of GOVERNMENT OF INDIA, keeping from what follows the lines
that are non-blank, longer than 10 characters and free of
Notification No., and joining the first three (stripped) with single
spaces. -/
theorem c4_post_header_fallback (text pre post : List Char)
    (hsplit : text = pre ++ govHeader ++ post)
    (hfirst : ∀ i, i < pre.length → govHeader.isPrefixOf (text.drop i) = false)
    (hnohead : headingSubject text = none)
    (hne : fallbackLines text ≠ []) :
    preSubject text = List.intercalate [' ']
      ((((post.splitOn '\n').filter keepFallbackLine).take 3).map pyStrip) := by
  have hah : afterHeader text = post := by
    rw [afterHeader, hsplit,
      afterFirstSub_append (by decide) pre post (by rw [← hsplit]; exact hfirst)]
    rfl
  have hfl : fallbackLines text =
      (((post.splitOn '\n').filter keepFallbackLine).map pyStrip).take 3 := by
    rw [fallbackLines, hah]
  rw [preSubject, hnohead]
  show (if (fallbackLines text).isEmpty then sentinelSubject
      else List.intercalate [' '] (fallbackLines text)) = _
  rw [if_neg (fun hc => hne (List.isEmpty_iff.mp hc)), hfl, List.map_take]

/-- Witness for C4 on a document with a letterhead line before the
header phrase and three qualifying lines after it. -/
theorem c4_post_header_fallback_w :
    preSubject "PREAMBLE\nGOVERNMENT OF INDIA\nthe first relevant line\nsecond relevant line!\nthird relevant line ok\nfourth relevant line".data =
      List.intercalate [' ']
        ((((("\nthe first relevant line\nsecond relevant line!\nthird relevant line ok\nfourth relevant line".data).splitOn '\n').filter
          keepFallbackLine).take 3).map pyStrip) :=
  c4_post_header_fallback _ "PREAMBLE\n".data
    "\nthe first relevant line\nsecond relevant line!\nthird relevant line ok\nfourth relevant line".data
    (by decide) (by decide) (by decide) (by decide)

/-! ## Digit-character arithmetic (for claim C1) -/

theorem char_toNat_bounds {c : Char} (h : c.isDigit = true) : 48 ≤ c.toNat ∧ c.toNat ≤ 57 := by
  simp only [Char.isDigit, Bool.and_eq_true, decide_eq_true_eq, ge_iff_le] at h
  obtain ⟨h1, h2⟩ := h
  exact ⟨UInt32.le_toNat_of_le (by decide) h1, UInt32.toNat_le_of_le (by decide) h2⟩

theorem char_eq_of_toNat {c : Char} {n : Nat} (h : c.toNat = n) : c = Char.ofNat n := by
  rw [← h, Char.ofNat_toNat]

theorem digit_cases {c : Char} (h : c.isDigit = true) :
    c = '0' ∨ c = '1' ∨ c = '2' ∨ c = '3' ∨ c = '4' ∨ c = '5' ∨ c = '6' ∨ c = '7' ∨
      c = '8' ∨ c = '9' := by
  obtain ⟨h1, h2⟩ := char_toNat_bounds h
  have h3 : c.toNat = 48 ∨ c.toNat = 49 ∨ c.toNat = 50 ∨ c.toNat = 51 ∨ c.toNat = 52 ∨
      c.toNat = 53 ∨ c.toNat = 54 ∨ c.toNat = 55 ∨ c.toNat = 56 ∨ c.toNat = 57 := by omega
  rcases h3 with h' | h' | h' | h' | h' | h' | h' | h' | h' | h' <;>
    rw [char_eq_of_toNat h'] <;> simp

theorem digit_not_space {c : Char} (h : c.isDigit = true) : isPySpace c = false := by
  rcases digit_cases h with rfl | rfl | rfl | rfl | rfl | rfl | rfl | rfl | rfl | rfl <;> decide

theorem beq_false_of_not_digit {x d : Char} (hx : x.isDigit = false) (hd : d.isDigit = true) :
    (x == d) = false := by
  cases hbe : x == d with
  | false => rfl
  | true => rw [eq_of_beq hbe, hd] at hx; exact Bool.noConfusion hx

theorem digitsToNat_one (a : Char) : digitsToNat [a] = dval a := by
  simp [digitsToNat, dval]

theorem digitsToNat_two (a b : Char) : digitsToNat [a, b] = 10 * dval a + dval b := by
  simp [digitsToNat, dval]

theorem sep_cases {s : Char} (h : isSepChar s = true) : s = '.' ∨ s = '/' ∨ s = '-' := by
  simp only [isSepChar, Bool.or_eq_true, beq_iff_eq] at h
  tauto

theorem slashMap_digit {c : Char} (h : c.isDigit = true) :
    (if c == '-' || c == '.' then '/' else c) = c := by
  rcases digit_cases h with rfl | rfl | rfl | rfl | rfl | rfl | rfl | rfl | rfl | rfl <;> decide

theorem slashMap_sep {s : Char} (h : isSepChar s = true) :
    (if s == '-' || s == '.' then '/' else s) = '/' := by
  rcases sep_cases h with rfl | rfl | rfl <;> decide

theorem map_slash_digits : ∀ (l : List Char), (∀ c ∈ l, c.isDigit = true) →
    l.map (fun c => if c == '-' || c == '.' then '/' else c) = l
  | [], _ => rfl
  | c :: r, h => by
    rw [List.map_cons, slashMap_digit (h c (List.mem_cons_self c r)),
      map_slash_digits r (fun x hx => h x (List.mem_cons_of_mem c hx))]

/-! ## The strptime matchers on valid inputs (for claim C1) -/

theorem matchDay2_nondigit {x : Char} (a : Char) (rest : List Char) (hx : x.isDigit = false) :
    matchDay2 (a :: x :: rest) = none := by
  have h0 := beq_false_of_not_digit hx (show ('0' : Char).isDigit = true by decide)
  have h1 := beq_false_of_not_digit hx (show ('1' : Char).isDigit = true by decide)
  simp [matchDay2, hx, h0, h1]

theorem matchMon2_nondigit {x : Char} (a : Char) (rest : List Char) (hx : x.isDigit = false) :
    matchMon2 (a :: x :: rest) = none := by
  have h0 := beq_false_of_not_digit hx (show ('0' : Char).isDigit = true by decide)
  have h1 := beq_false_of_not_digit hx (show ('1' : Char).isDigit = true by decide)
  have h2 := beq_false_of_not_digit hx (show ('2' : Char).isDigit = true by decide)
  simp [matchMon2, hx, h0, h1, h2]

theorem matchDay1_pos {a : Char} (rest : List Char) (ha : a.isDigit = true)
    (h1 : 1 ≤ dval a) : matchDay1 (a :: rest) = some (dval a, rest) := by
  have hne : a ≠ '0' := by
    intro h
    subst h
    exact absurd h1 (by decide)
  simp [matchDay1, ha, hne]

theorem matchMon1_pos {a : Char} (rest : List Char) (ha : a.isDigit = true)
    (h1 : 1 ≤ dval a) : matchMon1 (a :: rest) = some (dval a, rest) := by
  have hne : a ≠ '0' := by
    intro h
    subst h
    exact absurd h1 (by decide)
  simp [matchMon1, ha, hne]

theorem matchDay2_two {a b : Char} (rest : List Char)
    (ha : a.isDigit = true) (hb : b.isDigit = true)
    (h1 : 1 ≤ 10 * dval a + dval b) (h31 : 10 * dval a + dval b ≤ 31) :
    matchDay2 (a :: b :: rest) = some (10 * dval a + dval b, rest) := by
  have hbb := char_toNat_bounds hb
  rcases digit_cases ha with rfl | rfl | rfl | rfl | rfl | rfl | rfl | rfl | rfl | rfl
  · have hbne : b ≠ '0' := by
      intro h
      subst h
      exact absurd h1 (by decide)
    have e0 : dval '0' = 0 := by decide
    simp [matchDay2, hb, hbne, e0]
  · simp [matchDay2, hb]
  · simp [matchDay2, hb]
  · rcases digit_cases hb with rfl | rfl | rfl | rfl | rfl | rfl | rfl | rfl | rfl | rfl
    · rw [show 10 * dval '3' + dval '0' = 30 + dval '0' from by decide]
      simp [matchDay2]
    · rw [show 10 * dval '3' + dval '1' = 30 + dval '1' from by decide]
      simp [matchDay2]
    all_goals exact absurd h31 (by decide)
  · exact absurd h31 (by rw [show dval '4' = 4 from by decide]; omega)
  · exact absurd h31 (by rw [show dval '5' = 5 from by decide]; omega)
  · exact absurd h31 (by rw [show dval '6' = 6 from by decide]; omega)
  · exact absurd h31 (by rw [show dval '7' = 7 from by decide]; omega)
  · exact absurd h31 (by rw [show dval '8' = 8 from by decide]; omega)
  · exact absurd h31 (by rw [show dval '9' = 9 from by decide]; omega)


theorem matchMon2_two {a b : Char} (rest : List Char)
    (ha : a.isDigit = true) (hb : b.isDigit = true)
    (h1 : 1 ≤ 10 * dval a + dval b) (h12 : 10 * dval a + dval b ≤ 12) :
    matchMon2 (a :: b :: rest) = some (10 * dval a + dval b, rest) := by
  rcases digit_cases ha with rfl | rfl | rfl | rfl | rfl | rfl | rfl | rfl | rfl | rfl
  · have hbne : b ≠ '0' := by
      intro h
      subst h
      exact absurd h1 (by decide)
    have e0 : dval '0' = 0 := by decide
    simp [matchMon2, hb, hbne, e0]
  · rcases digit_cases hb with rfl | rfl | rfl | rfl | rfl | rfl | rfl | rfl | rfl | rfl
    · rw [show 10 * dval '1' + dval '0' = 10 + dval '0' from by decide]
      simp [matchMon2]
    · rw [show 10 * dval '1' + dval '1' = 10 + dval '1' from by decide]
      simp [matchMon2]
    · rw [show 10 * dval '1' + dval '2' = 10 + dval '2' from by decide]
      simp [matchMon2]
    all_goals exact absurd h12 (by decide)
  · exact absurd h12 (by rw [show dval '2' = 2 from by decide]; omega)
  · exact absurd h12 (by rw [show dval '3' = 3 from by decide]; omega)
  · exact absurd h12 (by rw [show dval '4' = 4 from by decide]; omega)
  · exact absurd h12 (by rw [show dval '5' = 5 from by decide]; omega)
  · exact absurd h12 (by rw [show dval '6' = 6 from by decide]; omega)
  · exact absurd h12 (by rw [show dval '7' = 7 from by decide]; omega)
  · exact absurd h12 (by rw [show dval '8' = 8 from by decide]; omega)
  · exact absurd h12 (by rw [show dval '9' = 9 from by decide]; omega)

theorem slashThen_slash (k : List Char → Option (Nat × Nat × Nat)) (r : List Char) :
    slashThen k ('/' :: r) = k r := by
  simp [slashThen]

theorem slashThen_digit (k : List Char → Option (Nat × Nat × Nat)) {x : Char}
    (r : List Char) (hx : x.isDigit = true) : slashThen k (x :: r) = none := by
  rcases digit_cases hx with rfl | rfl | rfl | rfl | rfl | rfl | rfl | rfl | rfl | rfl <;>
    simp [slashThen]

theorem daysInMonth_le_31 (y m : Nat) : daysInMonth y m ≤ 31 := by
  rw [daysInMonth]
  split
  · split <;> omega
  · split <;> omega

theorem finishYMD_ok (d m : Nat) (y1 y2 y3 y4 : Char)
    (h1 : y1.isDigit = true) (h2 : y2.isDigit = true)
    (h3 : y3.isDigit = true) (h4 : y4.isDigit = true)
    (hy : 1 ≤ digitsToNat [y1, y2, y3, y4])
    (hd : d ≤ daysInMonth (digitsToNat [y1, y2, y3, y4]) m) :
    finishYMD d m [y1, y2, y3, y4] = some (d, m, digitsToNat [y1, y2, y3, y4]) := by
  have ht : take4Digits [y1, y2, y3, y4] = some ([y1, y2, y3, y4], []) := by
    simp [take4Digits, h1, h2, h3, h4]
  rw [finishYMD, ht]
  show (if 1 ≤ digitsToNat [y1, y2, y3, y4] ∧
        d ≤ daysInMonth (digitsToNat [y1, y2, y3, y4]) m
      then some (d, m, digitsToNat [y1, y2, y3, y4]) else none) =
    some (d, m, digitsToNat [y1, y2, y3, y4])
  exact if_pos ⟨hy, hd⟩

theorem monthSlashYear_valid (d : Nat) (mds : List Char) (rest : List Char)
    (hall : ∀ c ∈ mds, c.isDigit = true)
    (hlen : mds.length = 1 ∨ mds.length = 2)
    (h1 : 1 ≤ digitsToNat mds) (h12 : digitsToNat mds ≤ 12) :
    monthSlashYear d (mds ++ '/' :: rest) = finishYMD d (digitsToNat mds) rest := by
  rcases mds with _ | ⟨a, _ | ⟨b, _ | ⟨c, t⟩⟩⟩
  · simp at hlen
  · have ha := hall a (by simp)
    rw [digitsToNat_one] at h1 h12 ⊢
    rw [List.cons_append, List.nil_append, monthSlashYear,
      matchMon2_nondigit a rest (by decide), matchMon1_pos ('/' :: rest) ha h1]
    rw [show (match (none : Option (Nat × List Char)) with
      | some (m, r3) => slashThen (finishYMD d m) r3
      | none => (none : Option (Nat × Nat × Nat))) = none from rfl]
    rw [Option.none_orElse]
    rw [show (match some (dval a, '/' :: rest) with
      | some (m, r3) => slashThen (finishYMD d m) r3
      | none => (none : Option (Nat × Nat × Nat))) =
        slashThen (finishYMD d (dval a)) ('/' :: rest) from rfl]
    exact slashThen_slash _ _
  · have ha := hall a (by simp)
    have hb := hall b (by simp)
    rw [digitsToNat_two] at h1 h12 ⊢
    rw [List.cons_append, List.cons_append, List.nil_append, monthSlashYear,
      matchMon2_two ('/' :: rest) ha hb h1 h12]
    have hB : (match matchMon1 (a :: b :: '/' :: rest) with
        | some (m, r3) => slashThen (finishYMD d m) r3
        | none => (none : Option (Nat × Nat × Nat))) = none := by
      rw [matchMon1]
      split
      · rename_i mi r4 heq
        split at heq
        · injection heq with h'
          cases h'
          exact slashThen_digit _ _ hb
        · exact absurd heq (by simp)
      · rfl
    rw [hB]
    rw [show (match some (10 * dval a + dval b, '/' :: rest) with
      | some (m, r3) => slashThen (finishYMD d m) r3
      | none => (none : Option (Nat × Nat × Nat))) =
        slashThen (finishYMD d (10 * dval a + dval b)) ('/' :: rest) from rfl]
    rw [Option.orElse_none]
    exact slashThen_slash _ _
  · rcases hlen with hlen | hlen <;> simp at hlen

theorem strptimeDMY_valid (dds rest2 : List Char)
    (hd : ∀ c ∈ dds, c.isDigit = true)
    (hdl : dds.length = 1 ∨ dds.length = 2)
    (h1 : 1 ≤ digitsToNat dds) (h31 : digitsToNat dds ≤ 31) :
    strptimeDMY (dds ++ '/' :: rest2) = monthSlashYear (digitsToNat dds) rest2 := by
  rcases dds with _ | ⟨a, _ | ⟨b, _ | ⟨c, t⟩⟩⟩
  · simp at hdl
  · have ha := hd a (by simp)
    rw [digitsToNat_one] at h1 h31 ⊢
    rw [List.cons_append, List.nil_append, strptimeDMY,
      matchDay2_nondigit a rest2 (by decide), matchDay1_pos ('/' :: rest2) ha h1]
    rw [show (match (none : Option (Nat × List Char)) with
      | some (d, r) => afterDaySlash d r
      | none => (none : Option (Nat × Nat × Nat))) = none from rfl]
    rw [Option.none_orElse]
    rw [show (match some (dval a, '/' :: rest2) with
      | some (d, r) => afterDaySlash d r
      | none => (none : Option (Nat × Nat × Nat))) =
        afterDaySlash (dval a) ('/' :: rest2) from rfl]
    rw [afterDaySlash]
    exact slashThen_slash _ _
  · have ha := hd a (by simp)
    have hb := hd b (by simp)
    rw [digitsToNat_two] at h1 h31 ⊢
    rw [List.cons_append, List.cons_append, List.nil_append, strptimeDMY,
      matchDay2_two ('/' :: rest2) ha hb h1 h31]
    have hB : (match matchDay1 (a :: b :: '/' :: rest2) with
        | some (d, r) => afterDaySlash d r
        | none => (none : Option (Nat × Nat × Nat))) = none := by
      rw [matchDay1]
      split
      · rename_i di r4 heq
        split at heq
        · injection heq with h'
          cases h'
          rw [afterDaySlash]
          exact slashThen_digit _ _ hb
        · exact absurd heq (by simp)
      · rfl
    rw [hB]
    rw [show (match some (10 * dval a + dval b, '/' :: rest2) with
      | some (d, r) => afterDaySlash d r
      | none => (none : Option (Nat × Nat × Nat))) =
        afterDaySlash (10 * dval a + dval b) ('/' :: rest2) from rfl]
    rw [Option.orElse_none, afterDaySlash]
    exact slashThen_slash _ _
  · rcases hdl with hdl | hdl <;> simp at hdl

theorem composeDate_valid (dds mds : List Char) (y1 y2 y3 y4 : Char) (s1 s2 : Char)
    (hd : ∀ c ∈ dds, c.isDigit = true) (hm : ∀ c ∈ mds, c.isDigit = true)
    (hy1 : y1.isDigit = true) (hy2 : y2.isDigit = true) (hy3 : y3.isDigit = true)
    (hy4 : y4.isDigit = true)
    (hdl : dds.length = 1 ∨ dds.length = 2) (hml : mds.length = 1 ∨ mds.length = 2)
    (hs1 : isSepChar s1 = true) (hs2 : isSepChar s2 = true)
    (h1d : 1 ≤ digitsToNat dds)
    (hdok : digitsToNat dds ≤ daysInMonth (digitsToNat [y1, y2, y3, y4]) (digitsToNat mds))
    (h1m : 1 ≤ digitsToNat mds) (h12 : digitsToNat mds ≤ 12)
    (h1y : 1 ≤ digitsToNat [y1, y2, y3, y4]) :
    composeDate (dds ++ s1 :: (mds ++ s2 :: [y1, y2, y3, y4])) =
      some (pad4 (digitsToNat [y1, y2, y3, y4]) ++ '-' ::
        (pad2 (digitsToNat mds) ++ '-' :: pad2 (digitsToNat dds))) := by
  have hy : ∀ c ∈ [y1, y2, y3, y4], c.isDigit = true := by
    intro c hc
    simp only [List.mem_cons, List.not_mem_nil, or_false] at hc
    rcases hc with rfl | rfl | rfl | rfl
    exacts [hy1, hy2, hy3, hy4]
  have hmap : sepsToSlash (dds ++ s1 :: (mds ++ s2 :: [y1, y2, y3, y4])) =
      dds ++ '/' :: (mds ++ '/' :: [y1, y2, y3, y4]) := by
    rw [sepsToSlash, List.map_append, List.map_cons, List.map_append, List.map_cons]
    rw [map_slash_digits dds hd, map_slash_digits mds hm, slashMap_sep hs1,
      slashMap_sep hs2, map_slash_digits _ hy]
  rw [composeDate, hmap,
    strptimeDMY_valid dds _ hd hdl h1d (le_trans hdok (daysInMonth_le_31 _ _)),
    monthSlashYear_valid _ mds _ hm hml h1m h12,
    finishYMD_ok _ _ _ _ _ _ hy1 hy2 hy3 hy4 h1y hdok]

theorem pyStrip_sandwich {a z : Char} (mid : List Char)
    (ha : isPySpace a = false) (hz : isPySpace z = false) :
    pyStrip (a :: (mid ++ [z])) = a :: (mid ++ [z]) := by
  rw [pyStrip, List.dropWhile_cons_of_neg (by simp [ha])]
  have hrev : (a :: (mid ++ [z])).reverse = z :: (mid.reverse ++ [a]) := by
    simp
  rw [hrev, List.dropWhile_cons_of_neg (by simp [hz]), ← hrev, List.reverse_reverse]

/-- C1: any occurrence of the keyword-anchored numeric date pattern makes
the search succeed; the raw date returned by `parse_gst_details` is then
the matched date substring verbatim (the spelled-out fallback never runs),
and for a well-formed match — digit day, month, four-digit year forming a
valid calendar date — the composer's prefix is exactly the matched year,
month and day, zero-padded, in `YYYY-MM-DD` order. -/
theorem c1_keyword_numeric_date :
    (∀ text i, (matchPat1At (text.drop i)).isSome = true → (searchPat1 text).isSome = true) ∧
    (∀ text dds mds yds : List Char, ∀ s1 s2 : Char,
      searchPat1 text = some (dds ++ s1 :: (mds ++ s2 :: yds)) →
      (∀ c ∈ dds, c.isDigit = true) → (∀ c ∈ mds, c.isDigit = true) →
      (∀ c ∈ yds, c.isDigit = true) →
      (dds.length = 1 ∨ dds.length = 2) → (mds.length = 1 ∨ mds.length = 2) →
      yds.length = 4 → isSepChar s1 = true → isSepChar s2 = true →
      1 ≤ digitsToNat dds →
      digitsToNat dds ≤ daysInMonth (digitsToNat yds) (digitsToNat mds) →
      1 ≤ digitsToNat mds → digitsToNat mds ≤ 12 → 1 ≤ digitsToNat yds →
      (parse_gst_details text).1 = some (dds ++ s1 :: (mds ++ s2 :: yds)) ∧
      composeDate (dds ++ s1 :: (mds ++ s2 :: yds)) =
        some (pad4 (digitsToNat yds) ++ '-' ::
          (pad2 (digitsToNat mds) ++ '-' :: pad2 (digitsToNat dds)))) := by
  refine ⟨searchPat1_isSome_of_match, ?_⟩
  intro text dds mds yds s1 s2 hsearch hdall hmall hyall hdl hml hyl hs1 hs2 h1d hdok h1m h12 h1y
  obtain ⟨y1, y2, y3, y4, rfl⟩ : ∃ y1 y2 y3 y4, yds = [y1, y2, y3, y4] := by
    rcases yds with _ | ⟨y1, _ | ⟨y2, _ | ⟨y3, _ | ⟨y4, _ | ⟨y5, t⟩⟩⟩⟩⟩
    · exact absurd hyl (by simp)
    · exact absurd hyl (by simp)
    · exact absurd hyl (by simp)
    · exact absurd hyl (by simp)
    · exact ⟨y1, y2, y3, y4, rfl⟩
    · exact absurd hyl (by simp only [List.length_cons]; omega)
  obtain ⟨a, dt, rfl⟩ : ∃ a dt, dds = a :: dt := by
    rcases dds with _ | ⟨a, dt⟩
    · exact absurd hdl (by simp)
    · exact ⟨a, dt, rfl⟩
  have ha := hdall a (by simp)
  constructor
  · show parseRawDate text = _
    rw [parseRawDate, hsearch]
    show some (pyStrip ((a :: dt) ++ s1 :: (mds ++ s2 :: [y1, y2, y3, y4]))) =
      some ((a :: dt) ++ s1 :: (mds ++ s2 :: [y1, y2, y3, y4]))
    congr 1
    have hshape : (a :: dt) ++ s1 :: (mds ++ s2 :: [y1, y2, y3, y4]) =
        a :: ((dt ++ s1 :: (mds ++ s2 :: [y1, y2, y3])) ++ [y4]) := by
      simp
    rw [hshape,
      pyStrip_sandwich _ (digit_not_space ha) (digit_not_space (hyall y4 (by simp)))]
  · exact composeDate_valid (a :: dt) mds y1 y2 y3 y4 s1 s2 hdall hmall
      (hyall y1 (by simp)) (hyall y2 (by simp)) (hyall y3 (by simp)) (hyall y4 (by simp))
      hdl hml hs1 hs2 h1d hdok h1m h12 h1y

/-- Witness for C1: Dated 15/08/2025 is matched, returned verbatim, and
composed into the prefix 2025-08-15. -/
theorem c1_keyword_numeric_date_w :
    (searchPat1 "Notification Dated 15/08/2025 follows".data).isSome = true ∧
    (parse_gst_details "Notification Dated 15/08/2025 follows".data).1 =
      some ("15".data ++ '/' :: ("08".data ++ '/' :: "2025".data)) ∧
    composeDate ("15".data ++ '/' :: ("08".data ++ '/' :: "2025".data)) =
      some (pad4 (digitsToNat "2025".data) ++ '-' ::
        (pad2 (digitsToNat "08".data) ++ '-' :: pad2 (digitsToNat "15".data))) := by
  refine ⟨c1_keyword_numeric_date.1 _ 13 (by decide), ?_⟩
  exact c1_keyword_numeric_date.2 _ "15".data "08".data "2025".data '/' '/'
    (by decide) (by decide) (by decide) (by decide) (by decide) (by decide) (by decide)
    (by decide) (by decide) (by decide) (by decide) (by decide) (by decide) (by decide)

end GstProcessor
